import Mathlib

/-!
Verification of the archive-identification and filename-decomposition layer
(`autobuild/archive_utils.py` and `split_tarname` in `autobuild/common.py`).

Filenames and byte streams are embedded as `List Char` and `List Nat`.
The filesystem seen by `open(filename, "rb")` is modelled as a partial map
from filenames to file contents; `none` means the open call fails, which the
Python code surfaces as an `IOError`/`OSError`.
-/

namespace Autobuild

/-- Archive format identifiers, from class `ArchiveType` in `archive_utils.py`:
`GZ = "gz"`, `BZ2 = "bz2"`, `ZIP = "zip"`, `ZST = "zst"`. -/
inductive ArchiveType where
  | gz
  | bz2
  | zip
  | zst
  deriving DecidableEq

/-- A file byte, kept as a `Nat` (all table entries are below 256). -/
abbrev Byte := Nat

/-- `_ARCHIVE_MAGIC_NUMBERS`: the static table mapping magic-byte prefixes to
archive types. A Python `dict` iterates in insertion order, so the embedding
is an association list in the source's literal order. -/
def _ARCHIVE_MAGIC_NUMBERS : List (List Byte × ArchiveType) :=
  [([0x1f, 0x8b, 0x08], ArchiveType.gz),
   ([0x42, 0x5a, 0x68], ArchiveType.bz2),
   ([0x50, 0x4b, 0x03, 0x04], ArchiveType.zip),
   ([0x28, 0xb5, 0x2f, 0xfd], ArchiveType.zst)]

/-- `_ARCHIVE_MAGIC_NUMBERS_MAX = max(len(x) for x in _ARCHIVE_MAGIC_NUMBERS)`. -/
def _ARCHIVE_MAGIC_NUMBERS_MAX : Nat :=
  (_ARCHIVE_MAGIC_NUMBERS.map (fun x => x.1.length)).foldl Nat.max 0

/-- The filesystem as seen by `open(filename, "rb")`: `none` means the file
cannot be opened for reading. -/
abbrev FileSystem := List Char → Option (List Byte)

/-- The I/O error raised when `open(filename, "rb")` fails. -/
inductive IOError where
  | cannotOpen (filename : List Char)
  deriving DecidableEq

/-- Python `s.endswith(suffix)`: `suffix` is a suffix of `s`. -/
def endswith (s suffix : List Char) : Bool :=
  suffix.isSuffixOf s

/-- `_archive_type_from_signature(filename)`: open the file, read the first
`_ARCHIVE_MAGIC_NUMBERS_MAX` bytes, and return the type of the first table
entry whose magic bytes are a prefix of the bytes read (`head.startswith`),
iterating the table in order; `none` when no signature matches. -/
def _archive_type_from_signature (fs : FileSystem) (filename : List Char) :
    Except IOError (Option ArchiveType) :=
  match fs filename with
  | none => .error (.cannotOpen filename)
  | some content =>
    let head := content.take _ARCHIVE_MAGIC_NUMBERS_MAX
    .ok (_ARCHIVE_MAGIC_NUMBERS.findSome? fun p =>
          if p.1.isPrefixOf head then some p.2 else none)

/-- `_archive_type_from_extension(filename)`: the suffix checks, in source
order. -/
def _archive_type_from_extension (filename : List Char) : Option ArchiveType :=
  if endswith filename ".tar.gz".toList then some ArchiveType.gz
  else if endswith filename ".tar.bz2".toList then some ArchiveType.bz2
  else if endswith filename ".tar.zst".toList then some ArchiveType.zst
  else if endswith filename ".zip".toList then some ArchiveType.zip
  else none

/-- `detect_archive_type(filename)`: extension first; only when the extension
yields nothing is the signature check (which opens the file) performed. -/
def detect_archive_type (fs : FileSystem) (filename : List Char) :
    Except IOError (Option ArchiveType) :=
  match _archive_type_from_extension filename with
  | some f_type => .ok (some f_type)
  | none => _archive_type_from_signature fs filename

/-- The handle returned by `open_archive`: a `ZstdTarFile`, a
`zipfile.ZipFile`, or a plain `tarfile.open` handle, each holding the path
and the mode it was opened with. -/
inductive ArchiveHandle where
  | zstdTarFile (filename : List Char) (mode : List Char)
  | zipFile (filename : List Char) (mode : List Char)
  | tarFile (filename : List Char) (mode : List Char)
  deriving DecidableEq

/-- `open_archive(filename)`: dispatch on `detect_archive_type`. A detection
error (the signature probe failing to open the file) propagates. -/
def open_archive (fs : FileSystem) (filename : List Char) :
    Except IOError ArchiveHandle :=
  match detect_archive_type fs filename with
  | .error e => .error e
  | .ok f_type =>
    match f_type with
    | some ArchiveType.zst => .ok (.zstdTarFile filename "r".toList)
    | some ArchiveType.zip => .ok (.zipFile filename "r".toList)
    | _ => .ok (.tarFile filename "r".toList)

/-- Helper: a string cannot end in two incomparable suffixes. -/
theorem not_endswith_of_endswith {s a b : List Char} (ha : endswith s a = true)
    (hab : ¬ (a <:+ b)) (hba : ¬ (b <:+ a)) : endswith s b = false := by
  rw [endswith, List.isSuffixOf_iff_suffix] at ha
  rw [endswith]
  cases hb : b.isSuffixOf s with
  | false => rfl
  | true =>
    rw [List.isSuffixOf_iff_suffix] at hb
    rcases List.suffix_or_suffix_of_suffix ha hb with h | h
    · exact absurd h hab
    · exact absurd h hba

/-- Helper shared by the suffix-detection theorems: a filename ending in
`.zip` is detected as zip on any filesystem. -/
theorem detect_zip_suffix (fs : FileSystem) (fn : List Char)
    (h : endswith fn ".zip".toList = true) :
    detect_archive_type fs fn = .ok (some ArchiveType.zip) := by
  have h1 : endswith fn ".tar.gz".toList = false :=
    not_endswith_of_endswith h (by decide) (by decide)
  have h2 : endswith fn ".tar.bz2".toList = false :=
    not_endswith_of_endswith h (by decide) (by decide)
  have h3 : endswith fn ".tar.zst".toList = false :=
    not_endswith_of_endswith h (by decide) (by decide)
  simp_all [detect_archive_type, _archive_type_from_extension]

/-- C1: for every filename ending in one of the recognized suffixes,
`detect_archive_type` returns the corresponding identifier for every
filesystem — in particular without reading the file, so a mismatching magic
signature is never consulted. -/
theorem detect_suffix_wins (fs : FileSystem) (fn : List Char) :
    (endswith fn ".tar.gz".toList = true →
      detect_archive_type fs fn = .ok (some ArchiveType.gz)) ∧
    (endswith fn ".tar.bz2".toList = true →
      detect_archive_type fs fn = .ok (some ArchiveType.bz2)) ∧
    (endswith fn ".tar.zst".toList = true →
      detect_archive_type fs fn = .ok (some ArchiveType.zst)) ∧
    (endswith fn ".zip".toList = true →
      detect_archive_type fs fn = .ok (some ArchiveType.zip)) := by
  refine ⟨?_, ?_, ?_, ?_⟩ <;> intro h
  · simp_all [detect_archive_type, _archive_type_from_extension]
  · have h1 : endswith fn ".tar.gz".toList = false :=
      not_endswith_of_endswith h (by decide) (by decide)
    simp_all [detect_archive_type, _archive_type_from_extension]
  · have h1 : endswith fn ".tar.gz".toList = false :=
      not_endswith_of_endswith h (by decide) (by decide)
    have h2 : endswith fn ".tar.bz2".toList = false :=
      not_endswith_of_endswith h (by decide) (by decide)
    simp_all [detect_archive_type, _archive_type_from_extension]
  · exact detect_zip_suffix fs fn h

/-- C1 witness: a file named `pkg.tar.gz` whose content begins with the ZIP
magic bytes is still detected as gzip, purely from the suffix. -/
theorem detect_suffix_wins_witness :
    detect_archive_type (fun _ => some [0x50, 0x4b, 0x03, 0x04])
      "pkg.tar.gz".toList = .ok (some ArchiveType.gz) :=
  (detect_suffix_wins (fun _ => some [0x50, 0x4b, 0x03, 0x04])
    "pkg.tar.gz".toList).1 (by decide)

/-- C2: for a file with no recognized suffix that can be opened, detection
reads the file: the read length bound is 4 (the longest signature), the table
is iterated in order gz, bz2, zip, zst, the first signature that is a prefix
of the bytes read wins, the result depends only on the first 4 content
bytes, and an empty file yields `none`. -/
theorem detect_signature_fallback (fs : FileSystem) (fn : List Char)
    (content : List Byte)
    (hext : _archive_type_from_extension fn = none)
    (hfs : fs fn = some content) :
    _ARCHIVE_MAGIC_NUMBERS_MAX = 4 ∧
    _ARCHIVE_MAGIC_NUMBERS.map Prod.snd =
      [ArchiveType.gz, ArchiveType.bz2, ArchiveType.zip, ArchiveType.zst] ∧
    detect_archive_type fs fn =
      .ok (_ARCHIVE_MAGIC_NUMBERS.findSome? fun p =>
            if p.1.isPrefixOf (content.take 4) then some p.2 else none) ∧
    (∀ (fs2 : FileSystem) (c2 : List Byte), fs2 fn = some c2 →
      c2.take 4 = content.take 4 →
      detect_archive_type fs2 fn = detect_archive_type fs fn) ∧
    (content = [] → detect_archive_type fs fn = .ok none) := by
  have hmax : _ARCHIVE_MAGIC_NUMBERS_MAX = 4 := rfl
  refine ⟨rfl, rfl, ?_, ?_, ?_⟩
  · simp [detect_archive_type, hext, _archive_type_from_signature, hfs, hmax]
  · intro fs2 c2 hfs2 htake
    simp [detect_archive_type, hext, _archive_type_from_signature, hfs, hfs2,
      hmax, htake]
  · intro hc
    subst hc
    simp [detect_archive_type, hext, _archive_type_from_signature, hfs, hmax,
      List.findSome?, _ARCHIVE_MAGIC_NUMBERS]

/-- C2 witness: a file named `file` (no recognized suffix) with empty content
is detected as `none`. -/
theorem detect_signature_fallback_witness :
    detect_archive_type (fun _ => some []) "file".toList = .ok none :=
  (detect_signature_fallback (fun _ => some []) "file".toList []
    (by decide) rfl).2.2.2.2 rfl

/-- C3: `open_archive` dispatches on the detection result: zstd gives a
`ZstdTarFile` in read mode, zip gives a `zipfile.ZipFile` reader, and every
other result — gz, bz2 or no recognized format — opens a plain tar reader on
the path, so an unrecognized format alone never fails `open_archive`. -/
theorem open_archive_dispatch (fs : FileSystem) (fn : List Char)
    (t : Option ArchiveType)
    (hdet : detect_archive_type fs fn = .ok t) :
    (t = some ArchiveType.zst →
      open_archive fs fn = .ok (.zstdTarFile fn "r".toList)) ∧
    (t = some ArchiveType.zip →
      open_archive fs fn = .ok (.zipFile fn "r".toList)) ∧
    (t ≠ some ArchiveType.zst → t ≠ some ArchiveType.zip →
      open_archive fs fn = .ok (.tarFile fn "r".toList)) := by
  refine ⟨?_, ?_, ?_⟩
  · intro h
    subst h
    simp [open_archive, hdet]
  · intro h
    subst h
    simp [open_archive, hdet]
  · intro h1 h2
    rcases t with _ | a
    · simp [open_archive, hdet]
    · cases a
      · simp [open_archive, hdet]
      · simp [open_archive, hdet]
      · exact absurd rfl h2
      · exact absurd rfl h1

/-- C3 witness: a path named `a.tar.zst` opens as a `ZstdTarFile` handle. -/
theorem open_archive_dispatch_witness :
    open_archive (fun _ => none) "a.tar.zst".toList =
      .ok (.zstdTarFile "a.tar.zst".toList "r".toList) :=
  (open_archive_dispatch (fun _ => none) "a.tar.zst".toList
    (some ArchiveType.zst) rfl).1 rfl

/-- Events on the resources owned by a `ZstdTarFile`, in occurrence order. -/
inductive ZstdEvent where
  | openZstdFile
  | initTarFile
  | closeTarFile
  | closeZstdFile
  deriving DecidableEq

/-- The errors that can arise inside `ZstdTarFile.__init__` and
`ZstdTarFile.close`. -/
inductive ZstdTarError where
  | zstdOpenError
  | tarInitError
  | tarCloseError
  deriving DecidableEq

/-- `ZstdTarFile.__init__(name, mode='r', ...)`: open the `ZstdFile`, then
`try` the `tarfile.TarFile` initializer on it; on failure (`except`), close
the `ZstdFile` and re-`raise`. The exception control flow is modelled by two
flags saying whether each step succeeds; the result is the outcome paired
with the ordered trace of resource events. The compression-option setup for
write modes touches no resource and does not affect this trace. -/
def ZstdTarFile_init (zstdOpenSucceeds tarInitSucceeds : Bool) :
    Except ZstdTarError Unit × List ZstdEvent :=
  if zstdOpenSucceeds = false then
    (.error ZstdTarError.zstdOpenError, [])
  else if tarInitSucceeds then
    (.ok (), [ZstdEvent.openZstdFile, ZstdEvent.initTarFile])
  else
    (.error ZstdTarError.tarInitError,
     [ZstdEvent.openZstdFile, ZstdEvent.closeZstdFile])

/-- `ZstdTarFile.close`: `try` the tar-level close, and in a `finally` block
close the `ZstdFile`; an error from the tar-level close propagates after the
`finally` cleanup has run. -/
def ZstdTarFile_close (tarCloseSucceeds : Bool) :
    Except ZstdTarError Unit × List ZstdEvent :=
  if tarCloseSucceeds then
    (.ok (), [ZstdEvent.closeTarFile, ZstdEvent.closeZstdFile])
  else
    (.error ZstdTarError.tarCloseError,
     [ZstdEvent.closeTarFile, ZstdEvent.closeZstdFile])

/-- C4: the zstd stream is never leaked. If the tar initializer fails after
the zstd stream was opened, the stream is closed and the error propagates;
`close` always closes the tar level first and the zstd stream second, and a
tar-level close error still propagates after the zstd stream is closed. -/
theorem zstdTarFile_no_leak :
    ((ZstdTarFile_init true false).1 = .error ZstdTarError.tarInitError ∧
     (ZstdTarFile_init true false).2 =
       [ZstdEvent.openZstdFile, ZstdEvent.closeZstdFile]) ∧
    ((ZstdTarFile_close true).2 =
       [ZstdEvent.closeTarFile, ZstdEvent.closeZstdFile] ∧
     (ZstdTarFile_close false).2 =
       [ZstdEvent.closeTarFile, ZstdEvent.closeZstdFile]) ∧
    ((ZstdTarFile_close false).1 = .error ZstdTarError.tarCloseError ∧
     (ZstdTarFile_close true).1 = .ok ()) :=
  ⟨⟨rfl, rfl⟩, ⟨rfl, rfl⟩, ⟨rfl, rfl⟩⟩

/-- Python `s.split(c)` for a one-character separator: splitting the empty
string gives `[""]`, and adjacent separators give empty fields. -/
def pysplit (c : Char) : List Char → List (List Char)
  | [] => [[]]
  | x :: xs =>
    if x = c then [] :: pysplit c xs
    else
      match pysplit c xs with
      | [] => [[x]]
      | h :: t => (x :: h) :: t

/-- Python `c.join(parts)` for a one-character separator. -/
def pyjoin (c : Char) : List (List Char) → List Char
  | [] => []
  | [x] => x
  | x :: y :: ys => x ++ c :: pyjoin c (y :: ys)

/-- Python `head.rstrip('/')`: drop trailing slashes. -/
def rstripSlashes (l : List Char) : List Char :=
  (l.reverse.dropWhile (· == '/')).reverse

/-- POSIX `os.path.split(p)`: split after the last `/`; the head keeps its
trailing slashes only when it is empty or consists solely of slashes. -/
def os_path_split (p : List Char) : List Char × List Char :=
  let tail := (p.reverse.takeWhile (· != '/')).reverse
  let head := p.take (p.length - tail.length)
  if !head.isEmpty && !(head.all (· == '/')) then (rstripSlashes head, tail)
  else (head, tail)

/-- The structured error type raised by `split_tarname`
(`autobuild.common.AutobuildError`), carrying its message. -/
structure AutobuildError where
  msg : List Char
  deriving DecidableEq

/-- The `fileparts` list of `split_tarname` just before the merge step: the
bare filename split on `-`, with the last raw token replaced by the part of
it before its first `.` (`fileparts[-1] = extparts[0]`). -/
def rawFileparts (filename : List Char) : List (List Char) :=
  let fileparts := pysplit '-' filename
  let extparts := pysplit '.' (fileparts.getLastD [])
  fileparts.dropLast ++ [extparts.headD []]

/-- The extension reconstructed by `split_tarname`: the dot-parts of the last
raw token with the first replaced by the empty string, rejoined with `.`
(`extparts[0] = ""; ext = '.'.join(extparts)`). -/
def tarnameExtension (filename : List Char) : List Char :=
  let fileparts := pysplit '-' filename
  let extparts := pysplit '.' (fileparts.getLastD [])
  pyjoin '.' ([] :: extparts.drop 1)

/-- The merge step of `split_tarname`: when more than 4 components remain,
`fileparts[1:-2]` — everything between the first component and the last two —
is replaced by its single dash-joined token. -/
def normalizeFileparts (fileparts : List (List Char)) : List (List Char) :=
  if fileparts.length > 4 then
    fileparts.take 1
      ++ [pyjoin '-' ((fileparts.drop 1).take (fileparts.length - 3))]
      ++ fileparts.drop (fileparts.length - 2)
  else fileparts

/-- `split_tarname(pathname)` from `common.py`: split off the directory,
split the filename on `-`, recover the dot-extension from the last token,
merge surplus interior tokens, and fail when fewer than 4 components remain. -/
def split_tarname (pathname : List Char) :
    Except AutobuildError (List Char × List (List Char) × List Char) :=
  let dir := (os_path_split pathname).1
  let filename := (os_path_split pathname).2
  let fileparts := normalizeFileparts (rawFileparts filename)
  if fileparts.length < 4 then
    .error ⟨"Incompatible archive name '".toList ++ filename ++
            "' lacks some components".toList⟩
  else
    .ok (dir, fileparts, tarnameExtension filename)

/-- C7: the docstring example. The dots inside the version token survive the
dash-first split and the two-segment extension is recovered intact. -/
theorem split_tarname_boost_example :
    split_tarname "/some/path/boost-1.39.0-darwin-20100222a.tar.bz2".toList =
      .ok ("/some/path".toList,
           ["boost".toList, "1.39.0".toList, "darwin".toList,
            "20100222a".toList],
           ".tar.bz2".toList) := by
  rfl

/-- Helper: when more than 4 components are present, the merge step leaves
exactly 4. -/
theorem normalizeFileparts_length_of_gt {fp : List (List Char)}
    (h : 4 < fp.length) : (normalizeFileparts fp).length = 4 := by
  rw [normalizeFileparts, if_pos h]
  simp only [List.length_append, List.length_take, List.length_drop,
    List.length_cons, List.length_nil]
  omega

/-- Helper: with at most 4 components the merge step is the identity. -/
theorem normalizeFileparts_of_le {fp : List (List Char)}
    (h : ¬ 4 < fp.length) : normalizeFileparts fp = fp := by
  rw [normalizeFileparts, if_neg h]

/-- Helper: the reconstructed extension is empty (last raw token without a
dot) or begins with a dot. -/
theorem tarnameExtension_shape (filename : List Char) :
    tarnameExtension filename = [] ∨ ['.'] <+: tarnameExtension filename := by
  simp only [tarnameExtension]
  cases (pysplit '.' ((pysplit '-' filename).getLastD [])).drop 1 with
  | nil =>
    left
    rfl
  | cons y ys =>
    right
    exact ⟨pyjoin '.' (y :: ys), rfl⟩

/-- C5: whenever the dash-split (after moving the dot-extension off the last
raw token) leaves more than 4 components, `split_tarname` succeeds and merges
everything between the first component and the last two into one dash-joined
token, leaving exactly 4 components; in particular the date-version example
from the claim. -/
theorem split_tarname_merge (p : List Char)
    (h : 4 < (rawFileparts (os_path_split p).2).length) :
    (∃ comps,
      split_tarname p =
        .ok ((os_path_split p).1, comps,
             tarnameExtension (os_path_split p).2) ∧
      comps.length = 4 ∧
      comps = (rawFileparts (os_path_split p).2).take 1
        ++ [pyjoin '-' (((rawFileparts (os_path_split p).2).drop 1).take
             ((rawFileparts (os_path_split p).2).length - 3))]
        ++ (rawFileparts (os_path_split p).2).drop
             ((rawFileparts (os_path_split p).2).length - 2)) ∧
    split_tarname "mypkg-2009-08-30-darwin-20100222a.tar.gz".toList =
      .ok ([], ["mypkg".toList, "2009-08-30".toList, "darwin".toList,
                "20100222a".toList], ".tar.gz".toList) := by
  have h4 := normalizeFileparts_length_of_gt h
  refine ⟨⟨normalizeFileparts (rawFileparts (os_path_split p).2), ?_, h4, ?_⟩,
    by rfl⟩
  · simp only [split_tarname]
    rw [if_neg (by omega)]
  · rw [normalizeFileparts, if_pos h]

/-- C5 witness: `a-b-c-d-e` has 5 raw components and is merged to 4. -/
theorem split_tarname_merge_witness :
    (∃ comps,
      split_tarname "a-b-c-d-e".toList =
        .ok ((os_path_split "a-b-c-d-e".toList).1, comps,
             tarnameExtension (os_path_split "a-b-c-d-e".toList).2) ∧
      comps.length = 4 ∧
      comps = (rawFileparts (os_path_split "a-b-c-d-e".toList).2).take 1
        ++ [pyjoin '-'
             (((rawFileparts (os_path_split "a-b-c-d-e".toList).2).drop 1).take
              ((rawFileparts (os_path_split "a-b-c-d-e".toList).2).length - 3))]
        ++ (rawFileparts (os_path_split "a-b-c-d-e".toList).2).drop
             ((rawFileparts (os_path_split "a-b-c-d-e".toList).2).length - 2)) ∧
    split_tarname "mypkg-2009-08-30-darwin-20100222a.tar.gz".toList =
      .ok ([], ["mypkg".toList, "2009-08-30".toList, "darwin".toList,
                "20100222a".toList], ".tar.gz".toList) :=
  split_tarname_merge "a-b-c-d-e".toList (by decide)

/-- C6 counterexample: on `badname.zip` exactly 1 component remains and a
parse error is raised, but its message — which does name the filename —
nowhere contains the component count (the character `1`). -/
theorem split_tarname_count_counterexample :
    (normalizeFileparts
      (rawFileparts (os_path_split "badname.zip".toList).2)).length = 1 ∧
    split_tarname "badname.zip".toList =
      .error ⟨("Incompatible archive name 'badname.zip'" ++
               " lacks some components").toList⟩ ∧
    '1' ∉ ("Incompatible archive name 'badname.zip'" ++
           " lacks some components").toList :=
  ⟨rfl, rfl, by decide⟩

/-- C6 (amended): `split_tarname` fails exactly when fewer than 4 components
remain after normalization, and the failure is a structured `AutobuildError`
whose message names the offending filename (the component count found is not
part of the message); `badname.zip` raises such a parse error. -/
theorem split_tarname_failure_iff (p : List Char) :
    ((∃ e, split_tarname p = .error e) ↔
      (normalizeFileparts (rawFileparts (os_path_split p).2)).length < 4) ∧
    (∀ e, split_tarname p = .error e →
      e.msg = "Incompatible archive name '".toList ++ (os_path_split p).2 ++
        "' lacks some components".toList) ∧
    (∃ e, split_tarname "badname.zip".toList = .error e) := by
  refine ⟨⟨?_, ?_⟩, ?_,
    ⟨⟨("Incompatible archive name 'badname.zip'" ++
       " lacks some components").toList⟩, rfl⟩⟩
  · rintro ⟨e, he⟩
    by_cases hlen :
        (normalizeFileparts (rawFileparts (os_path_split p).2)).length < 4
    · exact hlen
    · simp only [split_tarname] at he
      rw [if_neg hlen] at he
      exact absurd he (by simp)
  · intro hlen
    refine ⟨⟨"Incompatible archive name '".toList ++ (os_path_split p).2 ++
      "' lacks some components".toList⟩, ?_⟩
    simp only [split_tarname]
    rw [if_pos hlen]
  · intro e he
    by_cases hlen :
        (normalizeFileparts (rawFileparts (os_path_split p).2)).length < 4
    · simp only [split_tarname] at he
      rw [if_pos hlen] at he
      injection he with he2
      rw [← he2]
    · simp only [split_tarname] at he
      rw [if_neg hlen] at he
      exact absurd he (by simp)

/-- C6 witness: the amended message property evaluated on `badname.zip`. -/
theorem split_tarname_failure_iff_witness :
    (⟨("Incompatible archive name 'badname.zip'" ++
       " lacks some components").toList⟩ : AutobuildError).msg =
      "Incompatible archive name '".toList ++
        (os_path_split "badname.zip".toList).2 ++
        "' lacks some components".toList :=
  (split_tarname_failure_iff "badname.zip".toList).2.1 _ rfl

/-- C8 counterexample: `split_tarname` succeeds on `a-b-c-d` with an empty
extension, which does not start with `.`. -/
theorem split_tarname_ext_counterexample :
    split_tarname "a-b-c-d".toList =
      .ok ([], ["a".toList, "b".toList, "c".toList, "d".toList], []) ∧
    ¬ (['.'] <+: ([] : List Char)) :=
  ⟨rfl, by decide⟩

/-- C8 (amended): every successful `split_tarname` result has exactly 4
components, and its extension is either empty (when the last dash-token has
no dot) or starts with `.`. -/
theorem split_tarname_shape (p d : List Char) (comps : List (List Char))
    (ext : List Char) (h : split_tarname p = .ok (d, comps, ext)) :
    comps.length = 4 ∧ (ext = [] ∨ ['.'] <+: ext) := by
  by_cases hlen :
      (normalizeFileparts (rawFileparts (os_path_split p).2)).length < 4
  · simp only [split_tarname] at h
    rw [if_pos hlen] at h
    exact absurd h (by simp)
  · simp only [split_tarname] at h
    rw [if_neg hlen] at h
    simp only [Except.ok.injEq, Prod.mk.injEq] at h
    obtain ⟨-, hcomps, hext⟩ := h
    constructor
    · rw [← hcomps]
      by_cases hgt : 4 < (rawFileparts (os_path_split p).2).length
      · exact normalizeFileparts_length_of_gt hgt
      · rw [normalizeFileparts_of_le hgt]
        rw [normalizeFileparts_of_le hgt] at hlen
        omega
    · rw [← hext]
      exact tarnameExtension_shape (os_path_split p).2

/-- C8 witness: the shape property evaluated on `x-y-z-w.tar.gz`. -/
theorem split_tarname_shape_witness :
    (["x".toList, "y".toList, "z".toList, "w".toList] :
      List (List Char)).length = 4 ∧
    (".tar.gz".toList = ([] : List Char) ∨ ['.'] <+: ".tar.gz".toList) :=
  split_tarname_shape "x-y-z-w.tar.gz".toList []
    ["x".toList, "y".toList, "z".toList, "w".toList] ".tar.gz".toList rfl

/-- C9: the signature table is unambiguous — no registered magic prefix is a
prefix of another entry's, so any leading-byte sequence satisfies at most one
entry, independently of iteration order. -/
theorem magic_table_unambiguous :
    (∀ e1 ∈ _ARCHIVE_MAGIC_NUMBERS, ∀ e2 ∈ _ARCHIVE_MAGIC_NUMBERS,
      e1 ≠ e2 → ¬ (e1.1 <+: e2.1)) ∧
    (∀ head : List Byte, ∀ e1 ∈ _ARCHIVE_MAGIC_NUMBERS,
      ∀ e2 ∈ _ARCHIVE_MAGIC_NUMBERS,
      e1.1 <+: head → e2.1 <+: head → e1 = e2) := by
  have hfirst : ∀ e1 ∈ _ARCHIVE_MAGIC_NUMBERS, ∀ e2 ∈ _ARCHIVE_MAGIC_NUMBERS,
      e1 ≠ e2 → ¬ (e1.1 <+: e2.1) := by decide
  refine ⟨hfirst, ?_⟩
  intro head e1 h1 e2 h2 hp1 hp2
  by_contra hne
  rcases List.prefix_or_prefix_of_prefix hp1 hp2 with hc | hc
  · exact hfirst e1 h1 e2 h2 hne hc
  · exact hfirst e2 h2 e1 h1 (Ne.symm hne) hc

/-- C9 witness: the gzip magic matches a gzip stream head and only selects
the gzip entry. -/
theorem magic_table_unambiguous_witness :
    (([0x1f, 0x8b, 0x08], ArchiveType.gz) : List Byte × ArchiveType) =
      ([0x1f, 0x8b, 0x08], ArchiveType.gz) :=
  magic_table_unambiguous.2 [0x1f, 0x8b, 0x08, 0x00]
    ([0x1f, 0x8b, 0x08], ArchiveType.gz) (by decide)
    ([0x1f, 0x8b, 0x08], ArchiveType.gz) (by decide)
    (by decide) (by decide)

/-- C10: detection touches the filesystem exactly when no suffix matched:
with no recognized suffix it unconditionally opens the path, so a missing or
unreadable file surfaces as the underlying I/O error rather than `none`;
with a recognized suffix it answers even on a filesystem in which no file
can be opened at all. -/
theorem detect_io_contract (fs : FileSystem) (fn : List Char)
    (hext : _archive_type_from_extension fn = none)
    (hmiss : fs fn = none) :
    detect_archive_type fs fn = .error (.cannotOpen fn) ∧
    (∀ fn2 : List Char, endswith fn2 ".zip".toList = true →
      detect_archive_type (fun _ => none) fn2 =
        .ok (some ArchiveType.zip)) := by
  constructor
  · simp [detect_archive_type, hext, _archive_type_from_signature, hmiss]
  · intro fn2 h2
    exact detect_zip_suffix (fun _ => none) fn2 h2

/-- C10 witness: a file named `file` that cannot be opened makes detection
fail with the I/O error. -/
theorem detect_io_contract_witness :
    detect_archive_type (fun _ => none) "file".toList =
      .error (.cannotOpen "file".toList) :=
  (detect_io_contract (fun _ => none) "file".toList (by decide) rfl).1

end Autobuild
